import Mathlib

/-
Verification development for `apistar/apischema.py`.

The file under verification introspects a route table and generates an API
schema: `get_schema_url` finds the URL of the schema-serving route,
`get_schema_content` builds a dict mapping view names to Links,
`get_link` classifies each handler parameter into a location
(path / query / form / body) and packages the result as a Link, and
`render_form` builds a coreschema Object for HTML form rendering.

Shallow embedding conventions:
- Python classes used as annotations are abstracted by `Ty`, a record of the
  three boolean tests the code performs on an annotated type (membership in
  `apistar.routing.primitive_types`, `issubclass(-, apistar.routing.schema_types)`,
  `issubclass(-, apistar.schema.Object)`).  Those tuples live in modules that
  are not part of this file, so only the tests are modelled.
- A Python annotation may be any object, not necessarily a class; `PyAnnot`
  distinguishes a class (`cls`) from a non-class object (`nonClass`), because
  `issubclass` raises `TypeError` on a non-class first argument.  Fallible code
  therefore returns `Except String`.
- `uritemplate.URITemplate(path).variable_names` is modelled by
  `variableNames`, a direct parser of `{...}` expressions in the template.
- `urllib.parse.urljoin` is modelled opaquely by `urljoin`; claims use it
  only as an uninterpreted combination of base and path.
- Python dicts are modelled as association lists with Python's assignment
  semantics: assigning to an existing key overwrites the value in place,
  assigning to a fresh key appends.
-/

namespace ApiStar

/-- Abstraction of a Python class used as a type annotation: the record of the
three tests performed by `get_link`.  Modelled from the spec: the tuples
`primitive_types` and `schema_types` are defined in `apistar.routing` and the
class `schema.Object` in `apistar.schema`, none of which are part of the file
under verification; only the outcome of the three tests matters here. -/
structure Ty where
  isPrimitive : Bool
  isSchemaSub : Bool
  isObjectSub : Bool
deriving DecidableEq, Repr

/-- The Python class `str`: a primitive type, not a subclass of the schema
types nor of `schema.Object`. -/
def Ty.str : Ty := { isPrimitive := true, isSchemaSub := false, isObjectSub := false }

/-- A Python annotation object: either a class, or a non-class object (for
example a subscripted generic or a string), on which `issubclass` raises. -/
inductive PyAnnot where
  | cls (t : Ty)
  | nonClass
deriving DecidableEq, Repr

/-- A handler parameter: its name and its annotation; `none` models
`inspect.Signature.empty` (no annotation given). -/
structure Param where
  name : String
  annot : Option PyAnnot
deriving DecidableEq, Repr

/-- A view (handler) function as `get_schema_content` and `get_link` see it:
its `__name__`, its signature's parameters in order, the
`exclude_from_schema` attribute (`getattr(view, 'exclude_from_schema', False)`),
and whether the function is identical (`is`) to `serve_schema`. -/
structure View where
  name : String
  params : List Param
  excludeFromSchema : Bool
  isServeSchema : Bool
deriving DecidableEq, Repr

/-- A route: the `(path, method, view)` triple. -/
structure Route where
  path : String
  method : String
  view : View
deriving DecidableEq, Repr

/-- Minimal model of a `coreschema` schema: the file only ever builds
`coreschema.String()` and `coreschema.Object(properties=..., required=...)`. -/
inductive CoreSchema where
  | string : CoreSchema
  | object : List (String × CoreSchema) → List String → CoreSchema

/-- The `required` list of a schema (empty for a non-object schema). -/
def CoreSchema.requiredOf : CoreSchema → List String
  | .string => []
  | .object _ req => req

/-- The `properties` of a schema (empty for a non-object schema). -/
def CoreSchema.propsOf : CoreSchema → List (String × CoreSchema)
  | .string => []
  | .object props _ => props

/-- A `coreapi.Field`: name, location, required flag and schema.  The schema is
an `Option` because Python code tests it for truthiness (`field.schema or ...`). -/
structure Field where
  name : String
  location : String
  required : Bool
  schema : Option CoreSchema

/-- A `coreapi.Link`: url, action and the list of fields. -/
structure Link where
  url : String
  action : String
  fields : List Field

/-- Split a character list on commas. -/
def splitCommas : List Char → List Char → List (List Char)
  | [], cur => [cur.reverse]
  | c :: rest, cur =>
    if c = ',' then cur.reverse :: splitCommas rest []
    else splitCommas rest (c :: cur)

/-- Drop the value modifier from a URI-template variable spec: everything from
a `:` prefix-length modifier on, and a trailing `*` explode modifier. -/
def stripModifier (cs : List Char) : List Char :=
  let cs := cs.takeWhile (fun c => c ≠ ':')
  if cs.getLast? = some '*' then cs.dropLast else cs

/-- Operator characters that may start a URI-template expression. -/
def isOpChar (c : Char) : Bool :=
  c = '+' || c = '#' || c = '.' || c = '/' || c = ';' || c = '?' || c = '&' || c = '='

/-- Variable names of one `{...}` expression body: strip the operator, split on
commas, strip modifiers, drop empty specs. -/
def varsInExpr (e : List Char) : List String :=
  let e := match e with
    | c :: rest => if isOpChar c then rest else c :: rest
    | [] => []
  (((splitCommas e []).map stripModifier).filter (fun v => !v.isEmpty)).map String.mk

/-- Scanner for `variableNames`: walks the character list; outside braces it
looks for `{`, inside braces it accumulates the expression up to `}`. -/
def scanVars : List Char → Bool → List Char → List String
  | [], _, _ => []
  | c :: rest, false, _ =>
    if c = '{' then scanVars rest true [] else scanVars rest false []
  | c :: rest, true, cur =>
    if c = '}' then varsInExpr cur.reverse ++ scanVars rest false []
    else scanVars rest true (c :: cur)

/-- Model of `uritemplate.URITemplate(path).variable_names`: the variable names
appearing in `{...}` expressions of the template. -/
def variableNames (path : String) : List String :=
  scanVars path.toList false []

/-- Opaque model of `urllib.parse.urljoin`: claims only ever state that the
result is `urljoin` of the base and the path. -/
def urljoin (base path : String) : String :=
  base ++ path

/-- The Python `TypeError` message raised by `issubclass` on a non-class. -/
def issubclassErr : String := "TypeError: issubclass() arg 1 must be a class"

/-- One iteration of the parameter loop of `get_link`: given the route's
method and the URI template's variable names, classify one parameter.
Returns `.ok none` when `location` stays `None` (no field emitted),
`.ok (some field)` otherwise, and `.error` when
`issubclass(annotated_type, schema_types)` raises because the annotated type
is not a class.  Mirrors `apischema.py` lines 64-89. -/
def mkField (method : String) (varNames : List String) (param : Param) :
    Except String (Option Field) :=
  let annotated_type := param.annot.getD (PyAnnot.cls Ty.str)
  if param.name ∈ varNames then
    .ok (some { name := param.name, location := "path", required := true,
                schema := some CoreSchema.string })
  else
    match annotated_type with
    | .nonClass => .error issubclassErr
    | .cls t =>
      if t.isPrimitive || t.isSchemaSub then
        if method ∈ (["POST", "PUT", "PATCH"] : List String) then
          if t.isObjectSub then
            .ok (some { name := param.name, location := "body", required := true,
                        schema := some CoreSchema.string })
          else
            .ok (some { name := param.name, location := "form", required := false,
                        schema := some CoreSchema.string })
        else
          .ok (some { name := param.name, location := "query", required := false,
                      schema := some CoreSchema.string })
      else
        .ok none

/-- The parameter loop of `get_link`: builds the `fields` list in parameter
order, propagating the first `TypeError`. -/
def linkFields (method : String) (varNames : List String) :
    List Param → Except String (List Field)
  | [] => .ok []
  | p :: ps =>
    match mkField method varNames p with
    | .error e => .error e
    | .ok f? =>
      match linkFields method varNames ps with
      | .error e => .error e
      | .ok rest =>
        match f? with
        | some f => .ok (f :: rest)
        | none => .ok rest

/-- Model of `get_link(route)`: build the Link for one route
(`apischema.py` lines 53-91). -/
def get_link (route : Route) : Except String Link :=
  match linkFields route.method (variableNames route.path) route.view.params with
  | .error e => .error e
  | .ok fields => .ok { url := route.path, action := route.method, fields := fields }

/-- Python dict assignment `d[k] = v`: overwrite in place when the key exists,
append otherwise. -/
def dictInsert {α : Type} (d : List (String × α)) (k : String) (v : α) :
    List (String × α) :=
  if d.any (fun kv => kv.1 = k) then
    d.map (fun kv => if kv.1 = k then (k, v) else kv)
  else
    d ++ [(k, v)]

/-- Python dict lookup `d[k]` (as an `Option`). -/
def dictGet {α : Type} (d : List (String × α)) (k : String) : Option α :=
  (d.find? (fun kv => kv.1 = k)).map (fun kv => kv.2)

/-- Python `dict(pairs)`: fold the pairs into a dict by assignment. -/
def pyDict {α : Type} (pairs : List (String × α)) : List (String × α) :=
  pairs.foldl (fun d kv => dictInsert d kv.1 kv.2) []

/-- The route loop of `get_schema_content`: skip excluded views, otherwise
assign `content[view.__name__] = get_link(route)`. -/
def schemaContentLoop : List Route → List (String × Link) →
    Except String (List (String × Link))
  | [], content => .ok content
  | route :: rest, content =>
    if route.view.excludeFromSchema then
      schemaContentLoop rest content
    else
      match get_link route with
      | .error e => .error e
      | .ok link => schemaContentLoop rest (dictInsert content route.view.name link)

/-- Model of `get_schema_content(routes)` (`apischema.py` lines 37-50). -/
def get_schema_content (routes : List Route) :
    Except String (List (String × Link)) :=
  schemaContentLoop routes []

/-- Model of `get_schema_url(routes, base_url)` (`apischema.py` lines 27-34): the
`urljoin` of the base URL with the path of the first route whose view is
`serve_schema`, and `None` when there is none. -/
def get_schema_url (routes : List Route) (baseUrl : String) : Option String :=
  match routes with
  | [] => none
  | route :: rest =>
    if route.view.isServeSchema then some (urljoin baseUrl route.path)
    else get_schema_url rest baseUrl

/-- Opaque model of `coreschema.render_to_form`: the rendered form determined
by the schema handed to the external renderer. -/
structure RenderedForm where
  schema : CoreSchema

/-- Wrap a schema as the rendered form (model of `coreschema.render_to_form`). -/
def render_to_form (s : CoreSchema) : RenderedForm :=
  { schema := s }

/-- Model of `render_form(link)` (`apischema.py` lines 94-101): build an Object schema
whose properties are each field's schema (or a string schema when the field's
schema is falsy) and whose required list is empty, and render it. -/
def render_form (link : Link) : RenderedForm :=
  let properties := pyDict (link.fields.map
    (fun field => (field.name, field.schema.getD CoreSchema.string)))
  let required : List String := []
  let schemaObj := CoreSchema.object properties required
  render_to_form schemaObj

/-- The view of `serve_schema` (`apischema.py` lines 104-109): decorated with
`@exclude_from_schema`.  Modelled from the spec: the decorator lives in
`apistar.decorators`, outside the file under verification; it marks the view
with a truthy `exclude_from_schema` attribute.  The parameter annotation
`APISchema` is a `coreapi.Document` subclass, neither primitive nor a schema
type. -/
def serve_schema_view : View :=
  { name := "serve_schema",
    params := [{ name := "schema",
                 annot := some (PyAnnot.cls
                   { isPrimitive := false, isSchemaSub := false, isObjectSub := false }) }],
    excludeFromSchema := true,
    isServeSchema := true }

/-- The view of `serve_schema_js` (`apischema.py` lines 112-119), also
decorated with `@exclude_from_schema` (modelled from the spec, as above). -/
def serve_schema_js_view : View :=
  { name := "serve_schema_js",
    params := [{ name := "schema",
                 annot := some (PyAnnot.cls
                   { isPrimitive := false, isSchemaSub := false, isObjectSub := false }) },
               { name := "templates",
                 annot := some (PyAnnot.cls
                   { isPrimitive := false, isSchemaSub := false, isObjectSub := false }) }],
    excludeFromSchema := true,
    isServeSchema := false }

/-- The view of `serve_docs` (`apischema.py` lines 122-141), also decorated
with `@exclude_from_schema` (modelled from the spec, as above). -/
def serve_docs_view : View :=
  { name := "serve_docs",
    params := [{ name := "schema",
                 annot := some (PyAnnot.cls
                   { isPrimitive := false, isSchemaSub := false, isObjectSub := false }) },
               { name := "templates",
                 annot := some (PyAnnot.cls
                   { isPrimitive := false, isSchemaSub := false, isObjectSub := false }) }],
    excludeFromSchema := true,
    isServeSchema := false }

/-- Extract the field produced for one parameter, when the classification
succeeded with a field; used to state which parameters reach the Link. -/
def fieldOf (method : String) (varNames : List String) (param : Param) :
    Option Field :=
  match mkField method varNames param with
  | .ok (some f) => some f
  | _ => none

/-- The world as the schema functions could observe it: the route list they
receive and a stand-in for every piece of state outside the returned value.
The state-passing translations below thread the world through every loop
iteration, mirroring a statement-by-statement reading of the source, which
contains no assignment to either component. -/
structure World where
  routes : List Route
  outside : List String

/-- State-passing translation of the loop of `get_schema_url`. -/
def schemaUrlLoopW (baseUrl : String) : List Route → World → Option String × World
  | [], w => (none, w)
  | r :: rest, w =>
    if r.view.isServeSchema then (some (urljoin baseUrl r.path), w)
    else schemaUrlLoopW baseUrl rest w

/-- State-passing translation of `get_schema_url`. -/
def get_schema_urlW (w : World) (baseUrl : String) : Option String × World :=
  schemaUrlLoopW baseUrl w.routes w

/-- State-passing translation of the parameter loop of `get_link`. -/
def linkFieldsW (method : String) (varNames : List String) :
    List Param → World → Except String (List Field) × World
  | [], w => (.ok [], w)
  | p :: ps, w =>
    match mkField method varNames p with
    | .error e => (.error e, w)
    | .ok f? =>
      match linkFieldsW method varNames ps w with
      | (.error e, w') => (.error e, w')
      | (.ok rest, w') =>
        match f? with
        | some f => (.ok (f :: rest), w')
        | none => (.ok rest, w')

/-- State-passing translation of `get_link`. -/
def get_linkW (route : Route) (w : World) : Except String Link × World :=
  match linkFieldsW route.method (variableNames route.path) route.view.params w with
  | (.error e, w') => (.error e, w')
  | (.ok fields, w') =>
    (.ok { url := route.path, action := route.method, fields := fields }, w')

/-- State-passing translation of the route loop of `get_schema_content`. -/
def schemaContentLoopW : List Route → List (String × Link) → World →
    Except String (List (String × Link)) × World
  | [], content, w => (.ok content, w)
  | route :: rest, content, w =>
    if route.view.excludeFromSchema then schemaContentLoopW rest content w
    else
      match get_linkW route w with
      | (.error e, w') => (.error e, w')
      | (.ok link, w') =>
        schemaContentLoopW rest (dictInsert content route.view.name link) w'

/-- State-passing translation of `get_schema_content`. -/
def get_schema_contentW (w : World) : Except String (List (String × Link)) × World :=
  schemaContentLoopW w.routes [] w

/-
Helper lemmas about the dict model.
-/

theorem dictGet_nil {α : Type} (k : String) : dictGet ([] : List (String × α)) k = none := rfl

theorem dictGet_cons {α : Type} (kv : String × α) (d : List (String × α)) (k : String) :
    dictGet (kv :: d) k = if kv.1 = k then some kv.2 else dictGet d k := by
  by_cases h : kv.1 = k
  · simp [dictGet, List.find?_cons_of_pos, h]
  · simp [dictGet, List.find?_cons_of_neg, h]

theorem dictGet_map_replace_self {α : Type} (k : String) (v : α) :
    ∀ d : List (String × α), (∃ kv ∈ d, kv.1 = k) →
      dictGet (d.map (fun kv => if kv.1 = k then (k, v) else kv)) k = some v := by
  intro d
  induction d with
  | nil => intro h; simp at h
  | cons kv rest ih =>
    intro h
    by_cases hk : kv.1 = k
    · simp [hk, dictGet_cons]
    · have h' : ∃ kv ∈ rest, kv.1 = k := by
        rcases h with ⟨kv', hmem, hkv'⟩
        rcases List.mem_cons.mp hmem with heq | hmem'
        · exact absurd (heq ▸ hkv') hk
        · exact ⟨kv', hmem', hkv'⟩
      simp only [List.map_cons, if_neg hk, dictGet_cons]
      exact ih h'

theorem dictGet_map_replace_ne {α : Type} (k k' : String) (v : α) (h : k' ≠ k) :
    ∀ d : List (String × α),
      dictGet (d.map (fun kv => if kv.1 = k then (k, v) else kv)) k' = dictGet d k' := by
  intro d
  induction d with
  | nil => rfl
  | cons kv rest ih =>
    by_cases hk : kv.1 = k
    · simp only [List.map_cons, if_pos hk, dictGet_cons]
      rw [if_neg (fun hk' => h hk'.symm), if_neg (fun hc => h (hk ▸ hc).symm)]
      exact ih
    · simp only [List.map_cons, if_neg hk, dictGet_cons]
      by_cases hc : kv.1 = k'
      · rw [if_pos hc, if_pos hc]
      · rw [if_neg hc, if_neg hc]
        exact ih

theorem dictGet_append_single_self {α : Type} (k : String) (v : α) :
    ∀ d : List (String × α), (∀ kv ∈ d, kv.1 ≠ k) →
      dictGet (d ++ [(k, v)]) k = some v := by
  intro d
  induction d with
  | nil => intro _; simp [dictGet_cons]
  | cons kv rest ih =>
    intro h
    have hk : kv.1 ≠ k := h kv (List.mem_cons_self kv rest)
    simp only [List.cons_append, dictGet_cons, if_neg hk]
    exact ih (fun kv' hmem => h kv' (List.mem_cons_of_mem kv hmem))

theorem dictGet_append_single_ne {α : Type} (k k' : String) (v : α) (h : k' ≠ k) :
    ∀ d : List (String × α), dictGet (d ++ [(k, v)]) k' = dictGet d k' := by
  intro d
  induction d with
  | nil =>
    simp only [List.nil_append, dictGet_cons]
    rw [if_neg (fun hc => h hc.symm)]
  | cons kv rest ih =>
    simp only [List.cons_append, dictGet_cons]
    by_cases hc : kv.1 = k'
    · rw [if_pos hc, if_pos hc]
    · rw [if_neg hc, if_neg hc]
      exact ih

theorem dictGet_insert_self {α : Type} (d : List (String × α)) (k : String) (v : α) :
    dictGet (dictInsert d k v) k = some v := by
  unfold dictInsert
  by_cases h : d.any (fun kv => kv.1 = k)
  · rw [if_pos h]
    refine dictGet_map_replace_self k v d ?_
    simpa using h
  · rw [if_neg h]
    refine dictGet_append_single_self k v d ?_
    intro kv hmem hk
    exact h (List.any_eq_true.mpr ⟨kv, hmem, by simp [hk]⟩)

theorem dictGet_insert_ne {α : Type} (d : List (String × α)) (k k' : String) (v : α)
    (h : k' ≠ k) : dictGet (dictInsert d k v) k' = dictGet d k' := by
  unfold dictInsert
  by_cases hany : d.any (fun kv => kv.1 = k)
  · rw [if_pos hany]
    exact dictGet_map_replace_ne k k' v h d
  · rw [if_neg hany]
    exact dictGet_append_single_ne k k' v h d

/-
Helper lemmas about `mkField`, `linkFields` and `get_link`.
-/

theorem mkField_ok (method : String) (varNames : List String) (p : Param)
    (h : p.annot ≠ some PyAnnot.nonClass) :
    ∃ f?, mkField method varNames p = .ok f? := by
  have ha : ∃ t, p.annot.getD (PyAnnot.cls Ty.str) = PyAnnot.cls t := by
    cases hp : p.annot with
    | none => exact ⟨Ty.str, rfl⟩
    | some a =>
      cases a with
      | cls t => exact ⟨t, rfl⟩
      | nonClass => exact absurd hp h
  rcases ha with ⟨t, ht⟩
  simp only [mkField, ht]
  by_cases hmem : p.name ∈ varNames
  · rw [if_pos hmem]
    exact ⟨_, rfl⟩
  · rw [if_neg hmem]
    by_cases h1 : (t.isPrimitive || t.isSchemaSub) = true
    · rw [if_pos h1]
      by_cases h2 : method ∈ (["POST", "PUT", "PATCH"] : List String)
      · rw [if_pos h2]
        by_cases h3 : t.isObjectSub = true
        · rw [if_pos h3]; exact ⟨_, rfl⟩
        · rw [if_neg h3]; exact ⟨_, rfl⟩
      · rw [if_neg h2]; exact ⟨_, rfl⟩
    · rw [if_neg h1]; exact ⟨_, rfl⟩

theorem linkFields_ok_eq (method : String) (varNames : List String) :
    ∀ (ps : List Param) (fs : List Field),
      linkFields method varNames ps = .ok fs →
      fs = ps.filterMap (fieldOf method varNames) := by
  intro ps
  induction ps with
  | nil =>
    intro fs h
    simp only [linkFields] at h
    cases h
    rfl
  | cons p rest ih =>
    intro fs h
    simp only [linkFields] at h
    cases hmk : mkField method varNames p with
    | error e => simp [hmk] at h
    | ok f? =>
      simp only [hmk] at h
      cases hrest : linkFields method varNames rest with
      | error e => simp [hrest] at h
      | ok rfs =>
        simp only [hrest] at h
        cases f? with
        | some f =>
          cases h
          simp [List.filterMap_cons, fieldOf, hmk, ih rfs hrest]
        | none =>
          cases h
          simpa [List.filterMap_cons, fieldOf, hmk] using ih fs hrest

theorem linkFields_ok_exists (method : String) (varNames : List String) :
    ∀ ps : List Param, (∀ p ∈ ps, p.annot ≠ some PyAnnot.nonClass) →
      ∃ fs, linkFields method varNames ps = .ok fs := by
  intro ps
  induction ps with
  | nil => intro _; exact ⟨[], rfl⟩
  | cons p rest ih =>
    intro h
    rcases mkField_ok method varNames p (h p (List.mem_cons_self p rest)) with ⟨f?, hf⟩
    rcases ih (fun q hq => h q (List.mem_cons_of_mem p hq)) with ⟨rfs, hr⟩
    cases f? with
    | some f => exact ⟨f :: rfs, by simp [linkFields, hf, hr]⟩
    | none => exact ⟨rfs, by simp [linkFields, hf, hr]⟩

theorem get_link_ok (route : Route) (link : Link) (h : get_link route = .ok link) :
    link.url = route.path ∧ link.action = route.method ∧
      link.fields =
        route.view.params.filterMap (fieldOf route.method (variableNames route.path)) := by
  simp only [get_link] at h
  cases hlf : linkFields route.method (variableNames route.path) route.view.params with
  | error e => simp [hlf] at h
  | ok fields =>
    simp only [hlf] at h
    cases h
    exact ⟨rfl, rfl, linkFields_ok_eq _ _ _ _ hlf⟩

theorem get_link_ok_exists (route : Route)
    (h : ∀ p ∈ route.view.params, p.annot ≠ some PyAnnot.nonClass) :
    ∃ link, get_link route = .ok link := by
  rcases linkFields_ok_exists route.method (variableNames route.path) route.view.params h
    with ⟨fs, hfs⟩
  refine ⟨{ url := route.path, action := route.method, fields := fs }, ?_⟩
  simp [get_link, hfs]

/-
Helper lemmas about the accumulator loop of `get_schema_content`.
-/

theorem schemaContentLoop_lookup (k : String) :
    ∀ (routes : List Route) (acc content : List (String × Link)),
      schemaContentLoop routes acc = .ok content →
      (∀ r ∈ routes, r.view.excludeFromSchema = false → r.view.name ≠ k) →
      dictGet content k = dictGet acc k := by
  intro routes
  induction routes with
  | nil =>
    intro acc content h _
    simp only [schemaContentLoop] at h
    cases h
    rfl
  | cons r rest ih =>
    intro acc content h hnone
    by_cases hexc : r.view.excludeFromSchema = true
    · simp only [schemaContentLoop, if_pos hexc] at h
      exact ih acc content h (fun r' hm he => hnone r' (List.mem_cons_of_mem r hm) he)
    · simp only [schemaContentLoop, if_neg hexc] at h
      cases hgl : get_link r with
      | error e => simp [hgl] at h
      | ok link =>
        simp only [hgl] at h
        have hexc' : r.view.excludeFromSchema = false := Bool.eq_false_iff.mpr hexc
        have hk : r.view.name ≠ k := hnone r (List.mem_cons_self r rest) hexc'
        rw [ih _ content h (fun r' hm he => hnone r' (List.mem_cons_of_mem r hm) he)]
        exact dictGet_insert_ne acc r.view.name k link (fun hc => hk hc.symm)

theorem schemaContentLoop_same (k : String) (l : Link) :
    ∀ (routes : List Route) (acc content : List (String × Link)),
      schemaContentLoop routes acc = .ok content →
      (∀ r ∈ routes, r.view.excludeFromSchema = false → r.view.name = k →
        get_link r = .ok l) →
      ((∃ r ∈ routes, r.view.excludeFromSchema = false ∧ r.view.name = k) ∨
        dictGet acc k = some l) →
      dictGet content k = some l := by
  intro routes
  induction routes with
  | nil =>
    intro acc content h _ hstart
    simp only [schemaContentLoop] at h
    cases h
    rcases hstart with ⟨r, hr, _⟩ | hacc
    · simp at hr
    · exact hacc
  | cons r rest ih =>
    intro acc content h hall hstart
    by_cases hexc : r.view.excludeFromSchema = true
    · simp only [schemaContentLoop, if_pos hexc] at h
      refine ih acc content h (fun r' hm => hall r' (List.mem_cons_of_mem r hm)) ?_
      rcases hstart with ⟨r', hm, hf, hn⟩ | hacc
      · rcases List.mem_cons.mp hm with rfl | hm'
        · rw [hexc] at hf; cases hf
        · exact .inl ⟨r', hm', hf, hn⟩
      · exact .inr hacc
    · simp only [schemaContentLoop, if_neg hexc] at h
      have hexc' : r.view.excludeFromSchema = false := Bool.eq_false_iff.mpr hexc
      by_cases hname : r.view.name = k
      · have hlink : get_link r = .ok l := hall r (List.mem_cons_self r rest) hexc' hname
        simp only [hlink] at h
        refine ih _ content h (fun r' hm => hall r' (List.mem_cons_of_mem r hm)) (.inr ?_)
        rw [hname, dictGet_insert_self]
      · cases hgl : get_link r with
        | error e => simp [hgl] at h
        | ok link =>
          simp only [hgl] at h
          refine ih _ content h (fun r' hm => hall r' (List.mem_cons_of_mem r hm)) ?_
          rcases hstart with ⟨r', hm, hf, hn⟩ | hacc
          · rcases List.mem_cons.mp hm with rfl | hm'
            · exact absurd hn hname
            · exact .inl ⟨r', hm', hf, hn⟩
          · refine .inr ?_
            rw [dictGet_insert_ne acc r.view.name k link (fun hc => hname hc.symm)]
            exact hacc

theorem schemaContentLoop_last (k : String) (link : Link) :
    ∀ (l₁ : List Route) (r : Route) (l₂ : List Route) (acc content : List (String × Link)),
      schemaContentLoop (l₁ ++ r :: l₂) acc = .ok content →
      r.view.excludeFromSchema = false → r.view.name = k →
      (∀ r' ∈ l₂, r'.view.excludeFromSchema = false → r'.view.name ≠ k) →
      get_link r = .ok link →
      dictGet content k = some link := by
  intro l₁
  induction l₁ with
  | nil =>
    intro r l₂ acc content h hexc hname hl2 hlink
    simp only [List.nil_append, schemaContentLoop, hexc, Bool.false_eq_true, if_false,
      hlink] at h
    rw [schemaContentLoop_lookup k l₂ _ content h hl2, hname, dictGet_insert_self]
  | cons r₀ rest ih =>
    intro r l₂ acc content h hexc hname hl2 hlink
    by_cases hexc0 : r₀.view.excludeFromSchema = true
    · simp only [List.cons_append, schemaContentLoop, if_pos hexc0] at h
      exact ih r l₂ acc content h hexc hname hl2 hlink
    · simp only [List.cons_append, schemaContentLoop, if_neg hexc0] at h
      cases hgl : get_link r₀ with
      | error e => simp [hgl] at h
      | ok link₀ =>
        simp only [hgl] at h
        exact ih r l₂ _ content h hexc hname hl2 hlink

theorem schemaContentLoop_keys (k : String) :
    ∀ (routes : List Route) (acc content : List (String × Link)),
      schemaContentLoop routes acc = .ok content →
      (dictGet content k).isSome = true →
      (dictGet acc k).isSome = true ∨
        ∃ r, r ∈ routes ∧ r.view.excludeFromSchema = false ∧ r.view.name = k := by
  intro routes
  induction routes with
  | nil =>
    intro acc content h hk
    simp only [schemaContentLoop] at h
    cases h
    exact .inl hk
  | cons r rest ih =>
    intro acc content h hk
    by_cases hexc : r.view.excludeFromSchema = true
    · simp only [schemaContentLoop, if_pos hexc] at h
      rcases ih acc content h hk with hacc | ⟨r', hm, hf, hn⟩
      · exact .inl hacc
      · exact .inr ⟨r', List.mem_cons_of_mem r hm, hf, hn⟩
    · simp only [schemaContentLoop, if_neg hexc] at h
      have hexc' : r.view.excludeFromSchema = false := Bool.eq_false_iff.mpr hexc
      cases hgl : get_link r with
      | error e => simp [hgl] at h
      | ok link =>
        simp only [hgl] at h
        rcases ih _ content h hk with hacc | ⟨r', hm, hf, hn⟩
        · by_cases hname : r.view.name = k
          · exact .inr ⟨r, List.mem_cons_self r rest, hexc', hname⟩
          · rw [dictGet_insert_ne acc r.view.name k link (fun hc => hname hc.symm)] at hacc
            exact .inl hacc
        · exact .inr ⟨r', List.mem_cons_of_mem r hm, hf, hn⟩

/-
Agreement of the state-passing translations with the pure functions.
-/

theorem schemaUrlLoopW_eq (baseUrl : String) :
    ∀ (l : List Route) (w : World),
      schemaUrlLoopW baseUrl l w = (get_schema_url l baseUrl, w) := by
  intro l
  induction l with
  | nil => intro w; rfl
  | cons r rest ih =>
    intro w
    simp only [schemaUrlLoopW, get_schema_url]
    by_cases h : r.view.isServeSchema = true
    · rw [if_pos h, if_pos h]
    · rw [if_neg h, if_neg h, ih w]

theorem linkFieldsW_eq (method : String) (varNames : List String) :
    ∀ (ps : List Param) (w : World),
      linkFieldsW method varNames ps w = (linkFields method varNames ps, w) := by
  intro ps
  induction ps with
  | nil => intro w; rfl
  | cons p rest ih =>
    intro w
    simp only [linkFieldsW, linkFields]
    cases hmk : mkField method varNames p with
    | error e => rfl
    | ok f? =>
      rw [ih w]
      cases hlf : linkFields method varNames rest with
      | error e => rfl
      | ok rest' => cases f? <;> rfl

theorem get_linkW_eq (route : Route) (w : World) :
    get_linkW route w = (get_link route, w) := by
  simp only [get_linkW, get_link, linkFieldsW_eq]
  cases linkFields route.method (variableNames route.path) route.view.params <;> rfl

theorem schemaContentLoopW_eq :
    ∀ (routes : List Route) (content : List (String × Link)) (w : World),
      schemaContentLoopW routes content w = (schemaContentLoop routes content, w) := by
  intro routes
  induction routes with
  | nil => intro content w; rfl
  | cons r rest ih =>
    intro content w
    simp only [schemaContentLoopW, schemaContentLoop, get_linkW_eq]
    by_cases hexc : r.view.excludeFromSchema = true
    · rw [if_pos hexc, if_pos hexc, ih]
    · rw [if_neg hexc, if_neg hexc]
      cases get_link r with
      | error e => rfl
      | ok link => exact ih _ _

/-
The claims.
-/

/-- C1: for every route and every handler parameter whose name is not a
URI-template variable of the route's path and whose (possibly defaulted)
annotated type is a class that is a primitive type or a subclass of the schema
types, the classification in `get_link` assigns location `body` with
`required = true` when the route method is POST, PUT or PATCH and the
annotated type is a subclass of `schema.Object`; location `form` with
`required = false` when the method is POST, PUT or PATCH and the type is not
such a subclass; and location `query` with `required = false` for every other
method. -/
theorem C1_location_classification (route : Route) (param : Param) (t : Ty)
    (_hmem : param ∈ route.view.params)
    (hvar : param.name ∉ variableNames route.path)
    (hty : param.annot.getD (PyAnnot.cls Ty.str) = PyAnnot.cls t)
    (hprim : t.isPrimitive = true ∨ t.isSchemaSub = true) :
    mkField route.method (variableNames route.path) param =
      if route.method ∈ (["POST", "PUT", "PATCH"] : List String) then
        if t.isObjectSub then
          .ok (some { name := param.name, location := "body", required := true,
                      schema := some CoreSchema.string })
        else
          .ok (some { name := param.name, location := "form", required := false,
                      schema := some CoreSchema.string })
      else
        .ok (some { name := param.name, location := "query", required := false,
                    schema := some CoreSchema.string }) := by
  have h1 : (t.isPrimitive || t.isSchemaSub) = true := by
    rcases hprim with h | h <;> simp [h]
  simp only [mkField, hty, if_neg hvar, if_pos h1]

/-- C1 witness: a `schema.Object` subclass parameter of a POST route that is
not a path variable is placed in the body and required. -/
theorem C1_location_classification_witness :
    mkField "POST" (variableNames "/things")
        { name := "data",
          annot := some (PyAnnot.cls
            { isPrimitive := false, isSchemaSub := true, isObjectSub := true }) } =
      .ok (some { name := "data", location := "body", required := true,
                  schema := some CoreSchema.string }) := by
  have h := C1_location_classification
    { path := "/things", method := "POST",
      view := { name := "create",
                params := [{ name := "data",
                             annot := some (PyAnnot.cls
                               { isPrimitive := false, isSchemaSub := true,
                                 isObjectSub := true }) }],
                excludeFromSchema := false, isServeSchema := false } }
    { name := "data",
      annot := some (PyAnnot.cls
        { isPrimitive := false, isSchemaSub := true, isObjectSub := true }) }
    { isPrimitive := false, isSchemaSub := true, isObjectSub := true }
    (List.mem_cons_self _ _) (by decide) rfl (Or.inr rfl)
  rw [h]
  rfl

/-- C2: for every route and every parameter of its handler, if the parameter's
name appears among the variable names of the URI template built from the
route's path, then the classification assigns location `path` with
`required = true`, regardless of the parameter's annotation and of the route's
HTTP method. -/
theorem C2_path_variable_is_path_location (route : Route) (param : Param)
    (_hmem : param ∈ route.view.params)
    (hvar : param.name ∈ variableNames route.path) :
    mkField route.method (variableNames route.path) param =
      .ok (some { name := param.name, location := "path", required := true,
                  schema := some CoreSchema.string }) := by
  simp only [mkField, if_pos hvar]

/-- C2 witness: a path variable of a DELETE route is a required path field
even though its annotation is not even a class. -/
theorem C2_path_variable_witness :
    mkField "DELETE" (variableNames "/users/{id}")
        { name := "id", annot := some PyAnnot.nonClass } =
      .ok (some { name := "id", location := "path", required := true,
                  schema := some CoreSchema.string }) :=
  C2_path_variable_is_path_location
    { path := "/users/{id}", method := "DELETE",
      view := { name := "del",
                params := [{ name := "id", annot := some PyAnnot.nonClass }],
                excludeFromSchema := false, isServeSchema := false } }
    { name := "id", annot := some PyAnnot.nonClass }
    (List.mem_cons_self _ _) (by decide)

/-- C3: a parameter with no annotation (`inspect.Signature.empty`) is treated
exactly as if annotated with `str`: the classification coincides with the
`str`-annotated one, and any field produced for such a parameter carries the
default string schema. -/
theorem C3_missing_annot_defaults_to_str (method : String) (varNames : List String)
    (nm : String) :
    mkField method varNames { name := nm, annot := none } =
      mkField method varNames { name := nm, annot := some (PyAnnot.cls Ty.str) } ∧
    ∀ f : Field,
      mkField method varNames { name := nm, annot := none } = .ok (some f) →
      f.schema = some CoreSchema.string := by
  constructor
  · rfl
  · intro f hf
    simp only [mkField, Option.getD_none, Ty.str] at hf
    by_cases hmem : nm ∈ varNames
    · rw [if_pos hmem] at hf
      cases hf
      rfl
    · rw [if_neg hmem] at hf
      simp only [Bool.true_or, if_true] at hf
      by_cases hm : method ∈ (["POST", "PUT", "PATCH"] : List String)
      · rw [if_pos hm] at hf
        simp only [Bool.false_eq_true, if_false] at hf
        cases hf
        rfl
      · rw [if_neg hm] at hf
        cases hf
        rfl

/-- C3 witness: an unannotated parameter of a GET route classifies exactly as
a `str`-annotated one, and its field schema is the string schema. -/
theorem C3_missing_annot_witness :
    mkField "GET" [] { name := "q", annot := none } =
      mkField "GET" [] { name := "q", annot := some (PyAnnot.cls Ty.str) } ∧
    Field.schema { name := "q", location := "query", required := false,
                   schema := some CoreSchema.string } = some CoreSchema.string :=
  ⟨(C3_missing_annot_defaults_to_str "GET" [] "q").1,
   (C3_missing_annot_defaults_to_str "GET" [] "q").2
     { name := "q", location := "query", required := false,
       schema := some CoreSchema.string } rfl⟩

/-- C4 counterexample: two non-excluded views share the `__name__` `"v"`; the
dictionary returned by `get_schema_content` maps `"v"` to the Link of the
second route only, so it does not map the first route's view name to the Link
produced by `get_link` for the first route, refuting the claim's universal
per-route mapping. -/
theorem C4_counterexample :
    get_schema_content
        [ { path := "/a", method := "GET",
            view := { name := "v", params := [], excludeFromSchema := false,
                      isServeSchema := false } },
          { path := "/b", method := "GET",
            view := { name := "v", params := [], excludeFromSchema := false,
                      isServeSchema := false } } ] =
      .ok [("v", { url := "/b", action := "GET", fields := [] })] ∧
    get_link
        { path := "/a", method := "GET",
          view := { name := "v", params := [], excludeFromSchema := false,
                    isServeSchema := false } } =
      .ok { url := "/a", action := "GET", fields := [] } ∧
    ("/b" : String) ≠ "/a" :=
  ⟨rfl, rfl, by decide⟩

/-- C4 (amended): provided `get_schema_content` succeeds and all non-excluded
views sharing a route's view name produce the same Link, the returned
dictionary maps that view's `__name__` to the Link produced by `get_link` for
that route; and every Link produced by `get_link` has url equal to the route's
path, action equal to the route's method, and fields containing exactly the
parameters that were assigned a non-`None` location, in parameter order. -/
theorem C4_content_maps_names_to_links (routes : List Route)
    (content : List (String × Link)) (route : Route) (link : Link)
    (hok : get_schema_content routes = .ok content)
    (hmem : route ∈ routes)
    (hexc : route.view.excludeFromSchema = false)
    (hlink : get_link route = .ok link)
    (huniq : ∀ r' ∈ routes, r'.view.excludeFromSchema = false →
      r'.view.name = route.view.name → get_link r' = get_link route) :
    dictGet content route.view.name = some link ∧
    link.url = route.path ∧ link.action = route.method ∧
    link.fields =
      route.view.params.filterMap (fieldOf route.method (variableNames route.path)) := by
  refine ⟨?_, get_link_ok route link hlink⟩
  refine schemaContentLoop_same route.view.name link routes [] content hok
    ?_ (Or.inl ⟨route, hmem, hexc, rfl⟩)
  intro r' hm hf hn
  rw [huniq r' hm hf hn, hlink]

/-- C4 witness: a single GET route with one unannotated query parameter is
mapped to its Link, whose fields are the query field in order. -/
theorem C4_content_maps_witness :
    dictGet
        [("v", ({ url := "/a", action := "GET",
                  fields := [{ name := "q", location := "query", required := false,
                               schema := some CoreSchema.string }] } : Link))] "v" =
      some { url := "/a", action := "GET",
             fields := [{ name := "q", location := "query", required := false,
                          schema := some CoreSchema.string }] } ∧
    Link.url { url := "/a", action := "GET",
               fields := [{ name := "q", location := "query", required := false,
                            schema := some CoreSchema.string }] } = "/a" ∧
    Link.action { url := "/a", action := "GET",
                  fields := [{ name := "q", location := "query", required := false,
                               schema := some CoreSchema.string }] } = "GET" ∧
    Link.fields { url := "/a", action := "GET",
                  fields := [{ name := "q", location := "query", required := false,
                               schema := some CoreSchema.string }] } =
      List.filterMap (fieldOf "GET" (variableNames "/a"))
        [{ name := "q", annot := none }] :=
  C4_content_maps_names_to_links
    [ { path := "/a", method := "GET",
        view := { name := "v", params := [{ name := "q", annot := none }],
                  excludeFromSchema := false, isServeSchema := false } } ]
    [("v", { url := "/a", action := "GET",
             fields := [{ name := "q", location := "query", required := false,
                          schema := some CoreSchema.string }] })]
    { path := "/a", method := "GET",
      view := { name := "v", params := [{ name := "q", annot := none }],
                excludeFromSchema := false, isServeSchema := false } }
    { url := "/a", action := "GET",
      fields := [{ name := "q", location := "query", required := false,
                   schema := some CoreSchema.string }] }
    rfl (List.mem_cons_self _ _) rfl rfl
    (fun r' hm _ _ => by
      rcases List.mem_cons.mp hm with rfl | hm'
      · rfl
      · simp at hm')

/-- C5 counterexample: a POST route whose parameter is annotated with a
non-class object (for example a subscripted generic): the membership test in
`primitive_types` is false, so `issubclass(annotated_type, schema_types)`
raises `TypeError`, and `get_link` propagates it instead of returning a Link. -/
theorem C5_counterexample :
    get_link
        { path := "/x", method := "POST",
          view := { name := "v",
                    params := [{ name := "p", annot := some PyAnnot.nonClass }],
                    excludeFromSchema := false, isServeSchema := false } } =
      .error issubclassErr :=
  rfl

/-- C5 (amended): `get_link` raises no exception of its own provided every
parameter's annotation (after defaulting the missing ones to `str`) is a
class; the subclass test can only fail, with `TypeError`, on a parameter whose
name is not a URI-template variable and whose annotation is not a class. -/
theorem C5_no_exception_for_class_annots (route : Route)
    (h : ∀ p ∈ route.view.params, p.annot ≠ some PyAnnot.nonClass) :
    ∃ link, get_link route = .ok link :=
  get_link_ok_exists route h

/-- C5 witness: a route whose parameters are a path variable and an
unannotated parameter yields a Link. -/
theorem C5_no_exception_witness :
    ∃ link,
      get_link
          { path := "/users/{id}", method := "GET",
            view := { name := "user_detail",
                      params := [{ name := "id", annot := some (PyAnnot.cls Ty.str) },
                                 { name := "q", annot := none }],
                      excludeFromSchema := false, isServeSchema := false } } =
        .ok link :=
  C5_no_exception_for_class_annots
    { path := "/users/{id}", method := "GET",
      view := { name := "user_detail",
                params := [{ name := "id", annot := some (PyAnnot.cls Ty.str) },
                           { name := "q", annot := none }],
                excludeFromSchema := false, isServeSchema := false } }
    (fun p hp => by
      rcases List.mem_cons.mp hp with rfl | hp'
      · simp
      · rcases List.mem_cons.mp hp' with rfl | hp''
        · simp
        · simp at hp'')

/-- C6: schema generation is deterministic: for equal route lists,
`get_schema_content` and `get_link` on each route produce equal results, in
particular the same (name, location, required) tuples for each Link; the
output depends only on the given routes. -/
theorem C6_deterministic (routes₁ routes₂ : List Route) (h : routes₁ = routes₂) :
    get_schema_content routes₁ = get_schema_content routes₂ ∧
    ∀ route ∈ routes₁,
      get_link route = get_link route ∧
      (get_link route).map
          (fun link => link.fields.map (fun f => (f.name, f.location, f.required))) =
        (get_link route).map
          (fun link => link.fields.map (fun f => (f.name, f.location, f.required))) := by
  subst h
  exact ⟨rfl, fun _ _ => ⟨rfl, rfl⟩⟩

/-- C6 witness: determinism instantiated on a concrete one-route list. -/
theorem C6_deterministic_witness :
    get_schema_content
        [ { path := "/a", method := "GET",
            view := { name := "v", params := [{ name := "q", annot := none }],
                      excludeFromSchema := false, isServeSchema := false } } ] =
      get_schema_content
        [ { path := "/a", method := "GET",
            view := { name := "v", params := [{ name := "q", annot := none }],
                      excludeFromSchema := false, isServeSchema := false } } ] ∧
    ∀ route ∈
        [ ({ path := "/a", method := "GET",
             view := { name := "v", params := [{ name := "q", annot := none }],
                       excludeFromSchema := false, isServeSchema := false } } : Route) ],
      get_link route = get_link route ∧
      (get_link route).map
          (fun link => link.fields.map (fun f => (f.name, f.location, f.required))) =
        (get_link route).map
          (fun link => link.fields.map (fun f => (f.name, f.location, f.required))) :=
  C6_deterministic _ _ rfl

/-- C7: `get_schema_url`, `get_schema_content` and `get_link` are
side-effect-free: threading the world (the route list together with all state
outside the returned value) through the state-passing translations returns it
unchanged — so the route list and every route in it are unchanged — and the
computed values agree with the pure functions of the inputs alone. -/
theorem C7_side_effect_free (w : World) (baseUrl : String) (route : Route) :
    (get_schema_urlW w baseUrl).2 = w ∧
    (get_schema_contentW w).2 = w ∧
    (get_linkW route w).2 = w ∧
    (get_schema_urlW w baseUrl).1 = get_schema_url w.routes baseUrl ∧
    (get_schema_contentW w).1 = get_schema_content w.routes ∧
    (get_linkW route w).1 = get_link route := by
  refine ⟨?_, ?_, ?_, ?_, ?_, ?_⟩ <;>
    simp [get_schema_urlW, get_schema_contentW, get_linkW_eq, schemaUrlLoopW_eq,
      schemaContentLoopW_eq, get_schema_content]

/-- C8: `get_schema_url` returns `None` exactly when no route's view is
`serve_schema`, and otherwise returns `urljoin(base_url, path)` for the first
route in list order whose view is `serve_schema`. -/
theorem C8_schema_url_first_serve_schema (routes : List Route) (baseUrl : String) :
    get_schema_url routes baseUrl =
      (routes.find? (fun r => r.view.isServeSchema)).map
        (fun r => urljoin baseUrl r.path) ∧
    (get_schema_url routes baseUrl = none ↔
      ∀ r ∈ routes, r.view.isServeSchema = false) := by
  have h1 : get_schema_url routes baseUrl =
      (routes.find? (fun r => r.view.isServeSchema)).map
        (fun r => urljoin baseUrl r.path) := by
    induction routes with
    | nil => rfl
    | cons r rest ih =>
      by_cases h : r.view.isServeSchema = true
      · simp [get_schema_url, h, List.find?_cons_of_pos]
      · simp [get_schema_url, h, List.find?_cons_of_neg, ih]
  refine ⟨h1, ?_⟩
  rw [h1]
  constructor
  · intro hnone r hr
    rcases hfind : routes.find? (fun r => r.view.isServeSchema) with _ | r'
    · have := List.find?_eq_none.mp hfind r hr
      simpa using this
    · rw [hfind] at hnone
      simp at hnone
  · intro hall
    rcases hfind : routes.find? (fun r => r.view.isServeSchema) with _ | r'
    · rw [hfind]
      rfl
    · have hmem := List.mem_of_find?_eq_some hfind
      have htrue := List.find?_some hfind
      rw [hall r' hmem] at htrue
      cases htrue

/-- C8 witness: on a route list containing the `serve_schema` route, the
schema URL is the join of the base URL with that route's path. -/
theorem C8_schema_url_witness :
    get_schema_url
        [ { path := "/hello", method := "GET",
            view := { name := "hello", params := [], excludeFromSchema := false,
                      isServeSchema := false } },
          { path := "/schema", method := "GET", view := serve_schema_view } ]
        "http://example.com" =
      some (urljoin "http://example.com" "/schema") := by
  rw [(C8_schema_url_first_serve_schema
    [ { path := "/hello", method := "GET",
        view := { name := "hello", params := [], excludeFromSchema := false,
                  isServeSchema := false } },
      { path := "/schema", method := "GET", view := serve_schema_view } ]
    "http://example.com").1]
  rfl

/-- C9 counterexample: an excluded view and a non-excluded view share the
`__name__` `"foo"`: the generated dictionary then has the key `"foo"`, which
is the `__name__` of a view whose `exclude_from_schema` attribute is truthy,
refuting the claim's condition on the keys. -/
theorem C9_counterexample :
    get_schema_content
        [ { path := "/hidden", method := "GET",
            view := { name := "foo", params := [], excludeFromSchema := true,
                      isServeSchema := false } },
          { path := "/open", method := "GET",
            view := { name := "foo", params := [], excludeFromSchema := false,
                      isServeSchema := false } } ] =
      .ok [("foo", { url := "/open", action := "GET", fields := [] })] ∧
    View.excludeFromSchema
        { name := "foo", params := [], excludeFromSchema := true,
          isServeSchema := false } = true :=
  ⟨rfl, rfl⟩

/-- C9 (amended): routes whose views are excluded contribute no entries: every
key of the dictionary returned by `get_schema_content` is the `__name__` of
some non-excluded route's view — in particular the excluded schema-serving
endpoints `serve_schema`, `serve_schema_js` and `serve_docs` contribute
nothing, though a key may coincide with an excluded view's name when a
non-excluded view shares it — and if several non-excluded views share the
same `__name__`, the dictionary holds the Link of the latest such route in
list order. -/
theorem C9_excluded_never_described (routes : List Route)
    (content : List (String × Link))
    (hok : get_schema_content routes = .ok content) :
    (∀ k, (dictGet content k).isSome = true →
      ∃ r, r ∈ routes ∧ r.view.excludeFromSchema = false ∧ r.view.name = k) ∧
    (∀ (l₁ l₂ : List Route) (route : Route) (link : Link),
      routes = l₁ ++ route :: l₂ →
      route.view.excludeFromSchema = false →
      (∀ r' ∈ l₂, r'.view.excludeFromSchema = false →
        r'.view.name ≠ route.view.name) →
      get_link route = .ok link →
      dictGet content route.view.name = some link) := by
  constructor
  · intro k hk
    rcases schemaContentLoop_keys k routes [] content hok hk with habs | hex
    · simp [dictGet_nil] at habs
    · exact hex
  · intro l₁ l₂ route link hsplit hexc hl2 hlink
    exact schemaContentLoop_last route.view.name link l₁ route l₂ [] content
      (hsplit ▸ hok) hexc rfl hl2 hlink

/-- C9 witness: with the excluded `serve_schema` route and two non-excluded
routes sharing the name `"v"`, the dictionary holds the later route's Link
under `"v"`. -/
theorem C9_excluded_witness :
    dictGet [("v", ({ url := "/b", action := "GET", fields := [] } : Link))] "v" =
      some { url := "/b", action := "GET", fields := [] } :=
  (C9_excluded_never_described
    [ { path := "/schema", method := "GET", view := serve_schema_view },
      { path := "/a", method := "GET",
        view := { name := "v", params := [], excludeFromSchema := false,
                  isServeSchema := false } },
      { path := "/b", method := "GET",
        view := { name := "v", params := [], excludeFromSchema := false,
                  isServeSchema := false } } ]
    [("v", { url := "/b", action := "GET", fields := [] })] rfl).2
    [ { path := "/schema", method := "GET", view := serve_schema_view },
      { path := "/a", method := "GET",
        view := { name := "v", params := [], excludeFromSchema := false,
                  isServeSchema := false } } ]
    []
    { path := "/b", method := "GET",
      view := { name := "v", params := [], excludeFromSchema := false,
                isServeSchema := false } }
    { url := "/b", action := "GET", fields := [] }
    rfl rfl (fun r' hm => by simp at hm) rfl

/-- C10: for every link, `render_form` hands the external renderer an Object
schema whose properties are drawn from the link's fields — each field's
schema, a string schema when the field's schema is absent — and whose
required list is always empty, so no field is ever marked required in the
rendered form regardless of the fields' required flags. -/
theorem C10_render_form_never_requires (link : Link) :
    RenderedForm.schema (render_form link) =
      CoreSchema.object
        (pyDict (link.fields.map
          (fun field => (field.name, field.schema.getD CoreSchema.string))))
        [] ∧
    CoreSchema.requiredOf (RenderedForm.schema (render_form link)) = [] :=
  ⟨rfl, rfl⟩

end ApiStar
